import Mathlib

/-!
Verification of the slop-feed-detector pipeline.

Shallow embedding of the two scripts of the repository:

* `src/background.js` — the background service worker: `handleAnalyzePost`,
  `analyzeWithOpenAI`, `getSettings`, `getStats`, `updateStats`.  The browser
  storage and the HTTP endpoint are external collaborators; they are modelled
  as explicit inputs (`BgState` for the stored values, `BgEnv`/`ApiOutcome`
  for the behaviour of the store and of the classification endpoint).

* the content script (second half of `src/background.js` in this checkout) —
  `hashString`, `processTweets`, `processQueue`, badge manipulation.  The DOM
  is modelled as a list of post elements carrying the fields the script
  touches (`innerText` of the text node, the `data-slop-analyzed` tag, the
  attached badge, membership in the live document).  JavaScript's
  single-threaded event loop is modelled as a small-step system: every
  synchronous segment between two `await` points is one transition, and the
  environment chooses which pending continuation fires next
  (`EnvEv.scan`, `EnvEv.respond`, `EnvEv.delayDone`, `EnvEv.removeElem`).

Machine integers: JavaScript's `<<`, `&` coerce to signed 32-bit; this is
`toInt32` below on `Int`.  `charCodeAt` yields UTF-16 code units; `hashString`
is therefore defined over the list of code units (`List Nat`), and
`jsCharCodes` maps a Lean string to that list (they agree on the BMP, and all
concrete inputs used below are ASCII).
-/

/-- Classification label, the four values accepted by the validator in
`analyzeWithOpenAI`. -/
inductive Likelihood
  | low
  | medium
  | high
  | certain
deriving DecidableEq, Repr

/-- A classification result as returned by `analyzeWithOpenAI`:
`{likelihood, reason}`. -/
structure ClassResult where
  likelihood : Likelihood
  reason : String
deriving DecidableEq, Repr

/-! ## hashString (content script, lines 442–450) -/

/-- JavaScript `ToInt32`: reduce an integer to the signed 32-bit range
`[-2^31, 2^31)`, as performed by `<<` and `&`. -/
def toInt32 (n : Int) : Int :=
  (n + 2147483648) % 4294967296 - 2147483648

/-- The loop of `hashString`: `hash = ((hash << 5) - hash) + char` followed by
`hash = hash & hash`.  `hash << 5` is `toInt32 (hash * 32)` and the `&` is a
second `ToInt32` coercion of the whole sum. -/
def hashLoop : Int → List Nat → Int
  | h, [] => h
  | h, c :: cs => hashLoop (toInt32 (toInt32 (h * 32) - h + (c : Int))) cs

/-- Digit of `Number.prototype.toString(36)`: `0`–`9` then `a`–`z`. -/
def base36digit (d : Nat) : Char :=
  if d < 10 then Char.ofNat (48 + d) else Char.ofNat (87 + d)

/-- Base-36 digits of a natural number, most significant first.  The first
argument is fuel making the recursion structural (the kernel then evaluates
it); `n` itself is always enough fuel, since the value shrinks by a factor of
36 at every step. -/
def natToBase36Aux : Nat → Nat → List Char → List Char
  | 0, _, acc => acc
  | _ + 1, 0, acc => acc
  | fuel + 1, n, acc => natToBase36Aux fuel (n / 36) (base36digit (n % 36) :: acc)

/-- `Number.prototype.toString(36)` on a natural number. -/
def natToBase36 (n : Nat) : String :=
  if n = 0 then "0" else ⟨natToBase36Aux n n []⟩

/-- `Number.prototype.toString(36)` on an integer: a leading `-` for negative
values, then the base-36 rendering of the absolute value. -/
def intToBase36 (i : Int) : String :=
  if i < 0 then "-" ++ natToBase36 i.natAbs else natToBase36 i.toNat

/-- `hashString` over the UTF-16 code units of the input string. -/
def hashString (codes : List Nat) : String :=
  intToBase36 (hashLoop 0 codes)

/-- UTF-16 code units of a Lean string (equal to the code points on the BMP;
all concrete inputs below are ASCII, where the two coincide). -/
def jsCharCodes (s : String) : List Nat :=
  s.data.map Char.toNat

/-! ## Background worker (`src/background.js`, first half) -/

/-- Stats record stored under the `stats` key:
`{totalAnalyzed, low, medium, high, certain}`. -/
structure Stats where
  totalAnalyzed : Nat
  low : Nat
  medium : Nat
  high : Nat
  certain : Nat
deriving DecidableEq, Repr

/-- Counter of one label inside a `Stats` record. -/
def Stats.count (s : Stats) : Likelihood → Nat
  | .low => s.low
  | .medium => s.medium
  | .high => s.high
  | .certain => s.certain

/-- State owned by `chrome.storage.local` plus the worker's module-level
`lastRequestTime`. -/
structure BgState where
  storeApiKey : Option String
  storeEnabled : Option Bool
  storeStats : Option Stats
  lastRequestTime : Int
deriving DecidableEq, Repr

/-- Settings as computed by `getSettings`. -/
structure Settings where
  apiKey : String
  enabled : Bool
deriving DecidableEq, Repr

/-- `getSettings`: `apiKey = result.apiKey || ''`,
`enabled = result.enabled !== false` (default true). -/
def getSettingsPure (st : BgState) : Settings :=
  { apiKey :=
      match st.storeApiKey with
      | none => ""
      | some k => k
    enabled :=
      match st.storeEnabled with
      | some false => false
      | _ => true }

/-- `getStats`: the stored record, or the all-zero default. -/
def getStatsPure (st : BgState) : Stats :=
  st.storeStats.getD ⟨0, 0, 0, 0, 0⟩

/-- `stats[likelihood]++` of `updateStats`. -/
def bumpLabel (s : Stats) : Likelihood → Stats
  | .low => { s with low := s.low + 1 }
  | .medium => { s with medium := s.medium + 1 }
  | .high => { s with high := s.high + 1 }
  | .certain => { s with certain := s.certain + 1 }

/-- `updateStats`: read the record, increment `totalAnalyzed` and the label's
counter, write it back. -/
def updateStatsPure (s : Stats) (l : Likelihood) : Stats :=
  bumpLabel { s with totalAnalyzed := s.totalAnalyzed + 1 } l

/-- The parse of the model's reply content inside `analyzeWithOpenAI`:
either `JSON.parse` throws, or it yields an object with a `likelihood` string
and an optional `reason` string. -/
inductive ParsedBody
  | parseFail
  | parsed (likelihood : String) (reason : Option String)
deriving DecidableEq, Repr

/-- Behaviour of the HTTP endpoint for one call, covering every branch of
`analyzeWithOpenAI`: the `fetch` itself rejects; a non-ok status (with the
optional `errorData.error?.message` recovered from the body); an ok status
whose body is not JSON (`response.json()` rejects); an ok status with no (or
empty, which is falsy) `choices[0]?.message?.content`; or an ok status with
content that parses as `ParsedBody`. -/
inductive ApiOutcome
  | transportFail (msg : String)
  | notOk (status : Nat) (bodyErrMsg : Option String)
  | okBadJson (msg : String)
  | okNoContent
  | okContent (body : ParsedBody)
deriving DecidableEq, Repr

/-- JavaScript `x || d` on an optional string: missing and `""` are falsy. -/
def jsOrStr (s : Option String) (d : String) : String :=
  match s with
  | none => d
  | some "" => d
  | some r => r

/-- The validator `['low','medium','high','certain'].includes(...)`. -/
def parseLikelihood : String → Option Likelihood
  | "low" => some .low
  | "medium" => some .medium
  | "high" => some .high
  | "certain" => some .certain
  | _ => none

/-- `analyzeWithOpenAI`: `Except.error m` is a thrown `Error(m)` propagating
to the caller's catch.  An invalid likelihood value throws inside the inner
try and is converted by the inner catch to `'Failed to parse API response'`. -/
def analyzeWithOpenAI : ApiOutcome → Except String ClassResult
  | .transportFail m => .error m
  | .notOk status bodyMsg => .error (jsOrStr bodyMsg ("API error: " ++ toString status))
  | .okBadJson m => .error m
  | .okNoContent => .error "Empty response from API"
  | .okContent .parseFail => .error "Failed to parse API response"
  | .okContent (.parsed ls rs) =>
    match parseLikelihood ls with
    | none => .error "Failed to parse API response"
    | some l => .ok ⟨l, jsOrStr rs "No reason provided"⟩

/-- Result object returned to the content script by `handleAnalyzePost`:
either `{likelihood, reason}` or `{error}`. -/
inductive AnalyzeResult
  | success (r : ClassResult)
  | failure (msg : String)
deriving DecidableEq, Repr

/-- Observable side effects of one `handleAnalyzePost` call. -/
inductive BgEvent
  | clientCall
  | statsWrite
deriving DecidableEq, Repr

/-- Faults of the external store and endpoint during one call:
`settingsFault` makes the `chrome.storage.local.get` inside `getSettings`
reject, `statsFault` makes the storage access inside `updateStats` reject,
and `api` is the endpoint's behaviour. -/
structure BgEnv where
  settingsFault : Option String
  api : ApiOutcome
  statsFault : Option String
deriving DecidableEq, Repr

/-- Body of the `try` block of `handleAnalyzePost` (lines 74–99): returns the
state at exit, the events emitted, the milliseconds slept by the rate limiter,
and either a normal return value or a thrown error escaping the `try`. -/
def handleBody (st : BgState) (now : Int) (env : BgEnv) :
    BgState × List BgEvent × Int × Except String AnalyzeResult :=
  match env.settingsFault with
  | some m => (st, [], 0, .error m)
  | none =>
    let settings := getSettingsPure st
    if settings.enabled = false then
      (st, [], 0, .ok (.failure "Extension disabled"))
    else if settings.apiKey = "" then
      (st, [], 0, .ok (.failure "No API key configured"))
    else
      let timeSince := now - st.lastRequestTime
      let waited := if timeSince < 1000 then 1000 - timeSince else 0
      let st1 := { st with lastRequestTime := now + waited }
      match analyzeWithOpenAI env.api with
      | .error m => (st1, [.clientCall], waited, .error m)
      | .ok r =>
        match env.statsFault with
        | some m => (st1, [.clientCall], waited, .error m)
        | none =>
          ({ st1 with storeStats := some (updateStatsPure (getStatsPure st1) r.likelihood) },
           [.clientCall, .statsWrite], waited, .ok (.success r))

/-- Output of one `handleAnalyzePost` call. -/
structure HOut where
  state : BgState
  result : AnalyzeResult
  events : List BgEvent
  waited : Int
deriving DecidableEq, Repr

/-- `handleAnalyzePost`: the `try`/`catch` — a thrown error becomes
`{error: error.message}`.  `now` is `Date.now()` at entry; after the rate
limiting sleep the clock reads `now + waited`. -/
def handleAnalyzePost (st : BgState) (now : Int) (env : BgEnv) : HOut :=
  match handleBody st now env with
  | (s, ev, w, .ok r) => ⟨s, r, ev, w⟩
  | (s, ev, w, .error m) => ⟨s, .failure m, ev, w⟩

/-! ## Content script: data model -/

/-- Value of `tweet.dataset.slopAnalyzed`; `unseen` is the absent attribute. -/
inductive Tag
  | unseen
  | pending
  | noText
  | tooShort
  | cached
  | complete
  | error
deriving DecidableEq, Repr

/-- Badge attached to a post element: none, the loading spinner of
`injectLoadingBadge`, or the result badge of `injectBadge`. -/
inductive Badge
  | absent
  | loading
  | shown (r : ClassResult)
deriving DecidableEq, Repr

/-- One post element (`article[data-testid="tweet"]`): its id (object
identity), the `innerText` of its `tweetText` node if present, its state tag,
its badge, and whether `document.contains` it. -/
structure ElemSt where
  eid : Nat
  textContent : Option String
  tag : Tag
  badge : Badge
  inDom : Bool
deriving DecidableEq, Repr

/-- A queue entry `{ tweet, text, postId }`. -/
structure WorkItem where
  eid : Nat
  text : String
  postId : String
deriving DecidableEq, Repr

/-- Continuation state of the `processQueue` consumer loop between `await`
points: idle, suspended on `chrome.runtime.sendMessage` for one item, or
suspended on the 100 ms inter-item `setTimeout`. -/
inductive Consumer
  | idle
  | inflight (item : WorkItem)
  | delaying
deriving DecidableEq, Repr

/-- State of the content script: the post elements, the `analyzedPosts`
cache, the `analysisQueue`, the `isProcessingQueue` flag and the consumer
continuation. -/
structure Sys where
  elems : List ElemSt
  analyzedPosts : List (String × ClassResult)
  analysisQueue : List WorkItem
  isProcessingQueue : Bool
  consumer : Consumer
deriving DecidableEq, Repr

/-- Observable actions of the content script: an outbound classification
request (`chrome.runtime.sendMessage {action:'analyzePost'}`) for an element,
the start of the 100 ms inter-item delay, and the silent discard of a
dequeued item whose element left the document. -/
inductive Act
  | sendRequest (eid : Nat) (postId : String) (text : String)
  | delay
  | discard (eid : Nat)
deriving DecidableEq, Repr

/-- JavaScript whitespace as far as `String.prototype.trim` is concerned
(restricted to the code points occurring in practice; executable so that the
kernel can evaluate concrete scans). -/
def jsWhitespace (c : Char) : Bool :=
  c == ' ' || c == '\t' || c == '\n' || c == '\r'

/-- `String.prototype.trim`: strip whitespace from both ends. -/
def jsTrim (s : String) : String :=
  ⟨((s.data.dropWhile jsWhitespace).reverse.dropWhile jsWhitespace).reverse⟩

/-- Update the element with the given id (identity of the `tweet` object). -/
def updElem (es : List ElemSt) (eid : Nat) (f : ElemSt → ElemSt) : List ElemSt :=
  es.map fun e => if e.eid == eid then f e else e

/-- Set `tweet.dataset.slopAnalyzed`. -/
def setTag (s : Sys) (eid : Nat) (t : Tag) : Sys :=
  { s with elems := updElem s.elems eid fun e => { e with tag := t } }

/-- Replace the element's badge (`injectBadge`/`injectLoadingBadge` first call
`removeBadge`, so the net effect is a single assignment). -/
def setBadge (s : Sys) (eid : Nat) (b : Badge) : Sys :=
  { s with elems := updElem s.elems eid fun e => { e with badge := b } }

/-- Look up the element by id. -/
def findE (s : Sys) (eid : Nat) : Option ElemSt :=
  s.elems.find? fun e => e.eid == eid

/-- `document.contains(tweet)`. -/
def elemInDom (s : Sys) (eid : Nat) : Bool :=
  s.elems.any fun e => e.eid == eid && e.inDom

/-- The element's tag, if the element exists. -/
def tagOf (s : Sys) (eid : Nat) : Option Tag :=
  (findE s eid).map (·.tag)

/-- The element's badge, if the element exists. -/
def badgeOf (s : Sys) (eid : Nat) : Option Badge :=
  (findE s eid).map (·.badge)

/-- `analyzedPosts.set(postId, result)`. -/
def cacheSet : List (String × ClassResult) → String → ClassResult → List (String × ClassResult)
  | [], k, v => [(k, v)]
  | (k', v') :: rest, k, v =>
    if k' == k then (k, v) :: rest else (k', v') :: cacheSet rest k v

/-! ## Content script: processQueue and processTweets -/

/-- The `while` loop of `processQueue`, entered at the top of an iteration
with `q` the current `analysisQueue`.  It runs synchronously until the next
`await`: items whose element left the document are shifted and discarded with
no suspension (`continue` skips the delay); the first item still in the
document gets a loading badge and the loop suspends on `sendMessage`
(`Consumer.inflight`); an empty queue clears `isProcessingQueue` and exits. -/
def drainFrom : List WorkItem → Sys → Sys × List Act
  | [], s =>
    ({ s with analysisQueue := [], isProcessingQueue := false, consumer := .idle }, [])
  | it :: rest, s =>
    if elemInDom s it.eid then
      ({ setBadge s it.eid .loading with
          analysisQueue := rest, isProcessingQueue := true, consumer := .inflight it },
       [.sendRequest it.eid it.postId it.text])
    else
      ((drainFrom rest s).1, .discard it.eid :: (drainFrom rest s).2)

/-- A call of `processQueue()`: no-op while a loop instance is running or the
queue is empty; otherwise set the guard flag and run the loop to its first
suspension. -/
def processQueue (s : Sys) : Sys × List Act :=
  if s.isProcessingQueue || s.analysisQueue.isEmpty then (s, [])
  else drainFrom s.analysisQueue { s with isProcessingQueue := true }

/-- The body of the `for` loop of `processTweets` for one element, up to but
excluding the `processQueue()` call: returns the new state and the list of
Work Items pushed (empty or a singleton). -/
def scanPush (s : Sys) (eid : Nat) : Sys × List WorkItem :=
  match findE s eid with
  | none => (s, [])
  | some e =>
    if e.tag ≠ Tag.unseen then (s, [])
    else
      let s1 := setTag s eid .pending
      match e.textContent with
      | none => (setTag s1 eid .noText, [])
      | some raw =>
        let text := jsTrim raw
        if text.length < 20 then (setTag s1 eid .tooShort, [])
        else
          let pid := hashString (jsCharCodes text)
          match s1.analyzedPosts.lookup pid with
          | some cached => (setTag (setBadge s1 eid (.shown cached)) eid .cached, [])
          | none =>
            let item : WorkItem := ⟨eid, text, pid⟩
            ({ s1 with analysisQueue := s1.analysisQueue ++ [item] }, [item])

/-- The full `for` body: `processQueue()` is called exactly on the
cache-miss path, right after the push. -/
def scanOne (s : Sys) (eid : Nat) : Sys × List Act :=
  if (scanPush s eid).2.isEmpty then ((scanPush s eid).1, [])
  else processQueue (scanPush s eid).1

/-- Iterate the `for` loop over a list of element ids. -/
def scanList (s : Sys) : List Nat → Sys × List Act
  | [] => (s, [])
  | eid :: rest =>
    ((scanList (scanOne s eid).1 rest).1,
     (scanOne s eid).2 ++ (scanList (scanOne s eid).1 rest).2)

/-- `processTweets`: enumerate the post elements of the live document (the
`querySelectorAll` snapshot) and run the `for` body on each. -/
def processTweets (s : Sys) : Sys × List Act :=
  scanList s ((s.elems.filter fun e => e.inDom).map fun e => e.eid)

/-! ## Content script: event-loop steps -/

/-- The value the suspended `await chrome.runtime.sendMessage` resumes with:
a result object with a truthy `error` field, a result object without one, or
a rejection (`catch`). -/
inductive RespKind
  | ok (r : ClassResult)
  | err (msg : String)
  | thrown (msg : String)
deriving DecidableEq, Repr

/-- Environment events driving the single-threaded event loop: the debounced
scan timer fires; the in-flight `sendMessage` settles; the 100 ms inter-item
timer fires; an element is removed from the document. -/
inductive EnvEv
  | scan
  | respond (r : RespKind)
  | delayDone
  | removeElem (eid : Nat)
deriving DecidableEq, Repr

/-- Mark an element as removed from the live document. -/
def setRemoved (s : Sys) (eid : Nat) : Sys :=
  { s with elems := updElem s.elems eid fun e => { e with inDom := false } }

/-- One step of the event loop: runs the fired continuation synchronously up
to its next suspension.  `respond`/`delayDone` are no-ops unless the consumer
is suspended at the matching point. -/
def step (s : Sys) : EnvEv → Sys × List Act
  | .scan => processTweets s
  | .removeElem eid => (setRemoved s eid, [])
  | .delayDone =>
    match s.consumer with
    | .delaying => drainFrom s.analysisQueue s
    | _ => (s, [])
  | .respond r =>
    match s.consumer with
    | .inflight it =>
      (match r with
       | .ok res =>
         ({ setTag (setBadge s it.eid (.shown res)) it.eid .complete with
             analyzedPosts := cacheSet s.analyzedPosts it.postId res,
             consumer := .delaying },
          [.delay])
       | .thrown _ =>
         ({ setTag (setBadge s it.eid .absent) it.eid .error with consumer := .delaying },
          [.delay])
       | .err _ =>
         drainFrom (setTag (setBadge s it.eid .absent) it.eid .error).analysisQueue
           (setTag (setBadge s it.eid .absent) it.eid .error))
    | _ => (s, [])

/-- Run a sequence of environment events, accumulating the action trace. -/
def run (s : Sys) : List EnvEv → Sys × List Act
  | [] => (s, [])
  | ev :: evs =>
    ((run (step s ev).1 evs).1, (step s ev).2 ++ (run (step s ev).1 evs).2)

/-! ## Lemmas about the hash -/

lemma toInt32_range (n : Int) : -2147483648 ≤ toInt32 n ∧ toInt32 n < 2147483648 := by
  unfold toInt32
  omega

lemma hashStep_eq (h : Int) (c : Nat) :
    toInt32 (toInt32 (h * 32) - h + (c : Int)) = toInt32 (31 * h + (c : Int)) := by
  unfold toInt32
  omega

lemma hashLoop_eq_foldl (codes : List Nat) : ∀ h : Int,
    hashLoop h codes = codes.foldl (fun (a : Int) (c : Nat) => toInt32 (31 * a + (c : Int))) h := by
  induction codes with
  | nil => intro h; rfl
  | cons c cs ih =>
    intro h
    rw [hashLoop, hashStep_eq, List.foldl_cons, ih]

lemma hashLoop_range (codes : List Nat) : ∀ h : Int,
    -2147483648 ≤ h → h < 2147483648 →
    -2147483648 ≤ hashLoop h codes ∧ hashLoop h codes < 2147483648 := by
  induction codes with
  | nil => intro h h1 h2; exact ⟨h1, h2⟩
  | cons c cs ih =>
    intro h _ _
    rw [hashLoop]
    exact ih _ (toInt32_range _).1 (toInt32_range _).2

/-- C6: `hashString` is deterministic and pure — two calls on equal input
yield equal output — and its value is the compact base-36 rendering of the
fold `hash := truncate32 (((hash << 5) - hash) + charCode)` over the string's
character codes, whose accumulator stays a fixed-width signed 32-bit integer
throughout. -/
theorem hashString_deterministic_and_fold (codes : List Nat) :
    hashString codes = hashString codes ∧
    hashString codes =
      intToBase36 (codes.foldl (fun (h : Int) (c : Nat) => toInt32 (31 * h + (c : Int))) 0) ∧
    -2147483648 ≤ hashLoop 0 codes ∧ hashLoop 0 codes < 2147483648 := by
  refine ⟨rfl, ?_, ?_, ?_⟩
  · unfold hashString
    rw [hashLoop_eq_foldl]
  · exact (hashLoop_range codes 0 (by norm_num) (by norm_num)).1
  · exact (hashLoop_range codes 0 (by norm_num) (by norm_num)).2

/-! ## Background worker theorems -/

/-- C3: when the extension is disabled, `handleAnalyzePost` returns
`{error: "Extension disabled"}` with no client call, no stats write, no
rate-limit wait and an unchanged store; when it is enabled but the API key is
empty, it likewise returns `{error: "No API key configured"}` before any
request is issued. -/
theorem handleAnalyzePost_config_errors (st : BgState) (now : Int) (env : BgEnv)
    (hs : env.settingsFault = none) :
    ((getSettingsPure st).enabled = false →
      handleAnalyzePost st now env = ⟨st, .failure "Extension disabled", [], 0⟩) ∧
    ((getSettingsPure st).enabled = true → (getSettingsPure st).apiKey = "" →
      handleAnalyzePost st now env = ⟨st, .failure "No API key configured", [], 0⟩) := by
  constructor
  · intro he
    simp [handleAnalyzePost, handleBody, hs, he]
  · intro he hk
    simp [handleAnalyzePost, handleBody, hs, he, hk]

/-- C3 witness at concrete inputs: a disabled store, then an enabled store
with no key. -/
theorem handleAnalyzePost_config_errors_witness :
    handleAnalyzePost ⟨some "sk-x", some false, none, 0⟩ 7 ⟨none, .okNoContent, none⟩ =
      ⟨⟨some "sk-x", some false, none, 0⟩, .failure "Extension disabled", [], 0⟩ ∧
    handleAnalyzePost ⟨none, some true, none, 0⟩ 7 ⟨none, .okNoContent, none⟩ =
      ⟨⟨none, some true, none, 0⟩, .failure "No API key configured", [], 0⟩ :=
  ⟨(handleAnalyzePost_config_errors ⟨some "sk-x", some false, none, 0⟩ 7
      ⟨none, .okNoContent, none⟩ rfl).1 rfl,
   (handleAnalyzePost_config_errors ⟨none, some true, none, 0⟩ 7
      ⟨none, .okNoContent, none⟩ rfl).2 rfl rfl⟩

/-- C9: every completed classification performs exactly one stats write, a
read-modify-write that increments `totalAnalyzed` and the counter of the
returned label by one and leaves the other three counters unchanged. -/
theorem updateStats_once_per_completion (st : BgState) (now : Int) (env : BgEnv)
    (r : ClassResult)
    (hs : env.settingsFault = none)
    (he : (getSettingsPure st).enabled = true)
    (hk : (getSettingsPure st).apiKey ≠ "")
    (ha : analyzeWithOpenAI env.api = .ok r)
    (hf : env.statsFault = none) :
    (handleAnalyzePost st now env).events.count .statsWrite = 1 ∧
    (handleAnalyzePost st now env).state.storeStats =
      some (updateStatsPure (getStatsPure st) r.likelihood) ∧
    (updateStatsPure (getStatsPure st) r.likelihood).totalAnalyzed =
      (getStatsPure st).totalAnalyzed + 1 ∧
    (updateStatsPure (getStatsPure st) r.likelihood).count r.likelihood =
      (getStatsPure st).count r.likelihood + 1 ∧
    (∀ l, l ≠ r.likelihood →
      (updateStatsPure (getStatsPure st) r.likelihood).count l =
        (getStatsPure st).count l) := by
  refine ⟨?_, ?_, ?_, ?_, ?_⟩
  · simp [handleAnalyzePost, handleBody, hs, he, hk, ha, hf, List.count_cons]
  · simp [handleAnalyzePost, handleBody, hs, he, hk, ha, hf, getStatsPure]
  · cases hr : r.likelihood <;> simp [updateStatsPure, bumpLabel, hr]
  · cases hr : r.likelihood <;> simp [updateStatsPure, bumpLabel, hr, Stats.count]
  · intro l hl
    cases hr : r.likelihood <;> rw [hr] at hl <;> cases l <;>
      simp_all [updateStatsPure, bumpLabel, Stats.count]

/-- C9 witness at a concrete completed classification. -/
theorem updateStats_once_per_completion_witness :
    (handleAnalyzePost ⟨some "sk-x", none, some ⟨4, 1, 1, 1, 1⟩, 0⟩ 0
        ⟨none, .okContent (.parsed "high" (some "pattern")), none⟩).state.storeStats =
      some (updateStatsPure ⟨4, 1, 1, 1, 1⟩ .high) :=
  (updateStats_once_per_completion ⟨some "sk-x", none, some ⟨4, 1, 1, 1, 1⟩, 0⟩ 0
    ⟨none, .okContent (.parsed "high" (some "pattern")), none⟩ ⟨.high, "pattern"⟩
    rfl rfl (by decide) rfl rfl).2.1

/-- C10: `handleAnalyzePost` is total on its result channel: for every
settings-read fault, rate-limit state, endpoint behaviour (transport failure,
non-ok status, unparsable body, empty content, likelihood outside the label
set) and stats-write fault, it returns either `{likelihood, reason}` or an
object with a string `error` field, and a success can only carry a validated
label produced by `analyzeWithOpenAI`. -/
theorem handleAnalyzePost_total (st : BgState) (now : Int) (env : BgEnv) :
    ((∃ r, (handleAnalyzePost st now env).result = .success r) ∨
     (∃ m, (handleAnalyzePost st now env).result = .failure m)) ∧
    (∀ r, (handleAnalyzePost st now env).result = .success r →
      analyzeWithOpenAI env.api = .ok r) ∧
    (∀ m, env.settingsFault = some m →
      (handleAnalyzePost st now env).result = .failure m) ∧
    (env.settingsFault = none → (getSettingsPure st).enabled = true →
      (getSettingsPure st).apiKey ≠ "" →
      (∀ m, analyzeWithOpenAI env.api = .error m →
        (handleAnalyzePost st now env).result = .failure m) ∧
      (∀ r m, analyzeWithOpenAI env.api = .ok r → env.statsFault = some m →
        (handleAnalyzePost st now env).result = .failure m) ∧
      (∀ r, analyzeWithOpenAI env.api = .ok r → env.statsFault = none →
        (handleAnalyzePost st now env).result = .success r)) ∧
    (∀ m, analyzeWithOpenAI (.transportFail m) = .error m) ∧
    (analyzeWithOpenAI .okNoContent = .error "Empty response from API") ∧
    (analyzeWithOpenAI (.okContent .parseFail) =
      .error "Failed to parse API response") ∧
    (∀ ls rs, parseLikelihood ls = none →
      analyzeWithOpenAI (.okContent (.parsed ls rs)) =
        .error "Failed to parse API response") ∧
    (∀ o r, analyzeWithOpenAI o = .ok r →
      ∃ ls rs, o = .okContent (.parsed ls rs) ∧
        parseLikelihood ls = some r.likelihood) := by
  refine ⟨?_, ?_, ?_, ?_, fun m => rfl, rfl, rfl, ?_, ?_⟩
  · cases h : (handleAnalyzePost st now env).result with
    | success r => exact .inl ⟨r, rfl⟩
    | failure m => exact .inr ⟨m, rfl⟩
  · intro r hr
    unfold handleAnalyzePost handleBody at hr
    rcases hsf : env.settingsFault with _ | m <;> rw [hsf] at hr
    · by_cases he : (getSettingsPure st).enabled = false <;>
        simp [he] at hr
      by_cases hk : (getSettingsPure st).apiKey = "" <;>
        simp [hk] at hr
      rcases ha : analyzeWithOpenAI env.api with m | r' <;> rw [ha] at hr
      · simp at hr
      · rcases htf : env.statsFault with _ | m <;> rw [htf] at hr <;> simp at hr
        rw [hr]
    · simp at hr
  · intro m hm
    simp [handleAnalyzePost, handleBody, hm]
  · intro hs he hk
    refine ⟨?_, ?_, ?_⟩
    · intro m hm
      simp [handleAnalyzePost, handleBody, hs, he, hk, hm]
    · intro r m hr hm
      simp [handleAnalyzePost, handleBody, hs, he, hk, hr, hm]
    · intro r hr hm
      simp [handleAnalyzePost, handleBody, hs, he, hk, hr, hm]
  · intro ls rs hls
    simp [analyzeWithOpenAI, hls]
  · intro o r hor
    rcases o with m | ⟨status, bm⟩ | m | _ | body
    · simp [analyzeWithOpenAI] at hor
    · simp [analyzeWithOpenAI] at hor
    · simp [analyzeWithOpenAI] at hor
    · simp [analyzeWithOpenAI] at hor
    · rcases body with _ | ⟨ls, rs⟩
      · simp [analyzeWithOpenAI] at hor
      · refine ⟨ls, rs, rfl, ?_⟩
        rcases hls : parseLikelihood ls with _ | l
        · simp [analyzeWithOpenAI, hls] at hor
        · simp [analyzeWithOpenAI, hls] at hor
          rw [← hor]

/-- C10 witness: a concrete unparsable body yields the structured error
object, via the totality theorem. -/
theorem handleAnalyzePost_total_witness :
    (handleAnalyzePost ⟨some "sk-x", none, none, 0⟩ 3
        ⟨none, .okContent .parseFail, none⟩).result =
      .failure "Failed to parse API response" :=
  ((handleAnalyzePost_total ⟨some "sk-x", none, none, 0⟩ 3
      ⟨none, .okContent .parseFail, none⟩).2.2.2.1 rfl rfl (by decide)).1
    "Failed to parse API response" rfl

/-! ## Content script: element-update lemmas -/

lemma find?_updElem (es : List ElemSt) (a b : Nat) (f : ElemSt → ElemSt)
    (hf : ∀ e, (f e).eid = e.eid) :
    (updElem es a f).find? (fun e => e.eid == b) =
      ((es.find? fun e => e.eid == b).map fun e => if e.eid == a then f e else e) := by
  induction es with
  | nil => rfl
  | cons e es ih =>
    have heid : ((if e.eid == a then f e else e).eid == b) = (e.eid == b) := by
      split <;> simp [hf]
    rw [updElem, List.map_cons, List.find?_cons, List.find?_cons]
    show (match (if e.eid == a then f e else e).eid == b with
          | true => _ | false => _) = _
    rw [heid]
    cases hb : (e.eid == b)
    · exact ih
    · rfl

lemma findE_setTag (s : Sys) (a b : Nat) (t : Tag) :
    findE (setTag s a t) b =
      (findE s b).map fun e => if e.eid == a then { e with tag := t } else e := by
  unfold findE setTag
  exact find?_updElem _ _ _ _ fun e => rfl

lemma findE_setBadge (s : Sys) (a b : Nat) (bd : Badge) :
    findE (setBadge s a bd) b =
      (findE s b).map fun e => if e.eid == a then { e with badge := bd } else e := by
  unfold findE setBadge
  exact find?_updElem _ _ _ _ fun e => rfl

lemma findE_eid (s : Sys) (b : Nat) {e : ElemSt} (h : findE s b = some e) :
    e.eid = b := by
  unfold findE at h
  have h2 := List.find?_some h
  simpa using h2

lemma tagOf_setTag_self (s : Sys) (a : Nat) (t : Tag)
    (h : (findE s a).isSome) : tagOf (setTag s a t) a = some t := by
  rcases hf : findE s a with _ | e
  · rw [hf] at h; simp at h
  · have heid : (e.eid == a) = true := by simp [findE_eid s a hf]
    unfold tagOf
    rw [findE_setTag, hf, Option.map_some', Option.map_some', heid]
    rfl

lemma tagOf_setTag_ne (s : Sys) (a b : Nat) (t : Tag) (h : b ≠ a) :
    tagOf (setTag s a t) b = tagOf s b := by
  unfold tagOf
  rw [findE_setTag]
  rcases hf : findE s b with _ | e
  · rfl
  · have heq := findE_eid s b hf
    have hna : (e.eid == a) = false := by
      rw [heq]
      simp [h]
    rw [Option.map_some', Option.map_some', hna]
    rfl

lemma tagOf_setBadge (s : Sys) (a b : Nat) (bd : Badge) :
    tagOf (setBadge s a bd) b = tagOf s b := by
  unfold tagOf
  rw [findE_setBadge]
  rcases findE s b with _ | e
  · rfl
  · rw [Option.map_some', Option.map_some']
    split <;> rfl

lemma badgeOf_setTag (s : Sys) (a b : Nat) (t : Tag) :
    badgeOf (setTag s a t) b = badgeOf s b := by
  unfold badgeOf
  rw [findE_setTag]
  rcases findE s b with _ | e
  · rfl
  · rw [Option.map_some', Option.map_some']
    split <;> rfl

lemma badgeOf_setBadge_self (s : Sys) (a : Nat) (bd : Badge)
    (h : (findE s a).isSome) : badgeOf (setBadge s a bd) a = some bd := by
  rcases hf : findE s a with _ | e
  · rw [hf] at h; simp at h
  · have heid : (e.eid == a) = true := by simp [findE_eid s a hf]
    unfold badgeOf
    rw [findE_setBadge, hf, Option.map_some', Option.map_some', heid]
    rfl

lemma badgeOf_setBadge_ne (s : Sys) (a b : Nat) (bd : Badge) (h : b ≠ a) :
    badgeOf (setBadge s a bd) b = badgeOf s b := by
  unfold badgeOf
  rw [findE_setBadge]
  rcases hf : findE s b with _ | e
  · rfl
  · have heq := findE_eid s b hf
    have hna : (e.eid == a) = false := by
      rw [heq]
      simp [h]
    rw [Option.map_some', Option.map_some', hna]
    rfl

lemma isSome_findE_setTag (s : Sys) (a b : Nat) (t : Tag) :
    (findE (setTag s a t) b).isSome = (findE s b).isSome := by
  rw [findE_setTag]
  rcases findE s b with _ | e <;> rfl

lemma isSome_findE_setBadge (s : Sys) (a b : Nat) (bd : Badge) :
    (findE (setBadge s a bd) b).isSome = (findE s b).isSome := by
  rw [findE_setBadge]
  rcases findE s b with _ | e <;> rfl

lemma any_updElem (es : List ElemSt) (a : Nat) (f : ElemSt → ElemSt)
    (p : ElemSt → Bool) (hp : ∀ e, p (f e) = p e) :
    (updElem es a f).any p = es.any p := by
  induction es with
  | nil => rfl
  | cons e es ih =>
    simp only [updElem, List.map_cons, List.any_cons] at *
    rw [ih]
    congr 1
    split <;> simp [hp]

lemma elemInDom_setTag (s : Sys) (a b : Nat) (t : Tag) :
    elemInDom (setTag s a t) b = elemInDom s b := by
  unfold elemInDom setTag
  exact any_updElem _ _ _ _ fun e => rfl

lemma elemInDom_setBadge (s : Sys) (a b : Nat) (bd : Badge) :
    elemInDom (setBadge s a bd) b = elemInDom s b := by
  unfold elemInDom setBadge
  exact any_updElem _ _ _ _ fun e => rfl
/-! ## Lemmas about drainFrom and processQueue -/

lemma drainFrom_cache (q : List WorkItem) (s : Sys) :
    (drainFrom q s).1.analyzedPosts = s.analyzedPosts := by
  induction q with
  | nil => rfl
  | cons it rest ih =>
    rw [drainFrom]
    split
    · rfl
    · exact ih

lemma drainFrom_tagOf (q : List WorkItem) (s : Sys) (b : Nat) :
    tagOf (drainFrom q s).1 b = tagOf s b := by
  induction q with
  | nil => rfl
  | cons it rest ih =>
    rw [drainFrom]
    split
    · show tagOf { setBadge s it.eid .loading with
        analysisQueue := rest, isProcessingQueue := true, consumer := .inflight it } b = _
      have : tagOf { setBadge s it.eid .loading with
          analysisQueue := rest, isProcessingQueue := true, consumer := .inflight it } b =
          tagOf (setBadge s it.eid .loading) b := rfl
      rw [this, tagOf_setBadge]
    · exact ih

lemma drainFrom_isSome_findE (q : List WorkItem) (s : Sys) (b : Nat) :
    (findE (drainFrom q s).1 b).isSome = (findE s b).isSome := by
  induction q with
  | nil => rfl
  | cons it rest ih =>
    rw [drainFrom]
    split
    · show (findE { setBadge s it.eid .loading with
        analysisQueue := rest, isProcessingQueue := true, consumer := .inflight it } b).isSome = _
      have : findE { setBadge s it.eid .loading with
          analysisQueue := rest, isProcessingQueue := true, consumer := .inflight it } b =
          findE (setBadge s it.eid .loading) b := rfl
      rw [this, isSome_findE_setBadge]
    · exact ih

lemma drainFrom_no_delay (q : List WorkItem) (s : Sys) :
    Act.delay ∉ (drainFrom q s).2 := by
  induction q with
  | nil => simp [drainFrom]
  | cons it rest ih =>
    rw [drainFrom]
    split
    · simp
    · simp [ih]

lemma drainFrom_send_inDom (q : List WorkItem) (s : Sys) :
    ∀ e p t, Act.sendRequest e p t ∈ (drainFrom q s).2 → elemInDom s e = true := by
  induction q with
  | nil => simp [drainFrom]
  | cons it rest ih =>
    intro e p t hmem
    rw [drainFrom] at hmem
    split at hmem
    · rename_i hdom
      simp at hmem
      rw [hmem.1]
      exact hdom
    · rw [List.mem_cons] at hmem
      rcases hmem with h1 | h1
      · simp at h1
      · exact ih e p t h1

lemma drainFrom_queue_suffix (q : List WorkItem) (s : Sys) :
    (drainFrom q s).1.analysisQueue <:+ q := by
  induction q with
  | nil => simp [drainFrom]
  | cons it rest ih =>
    rw [drainFrom]
    split
    · exact ⟨[it], rfl⟩
    · exact ih.trans (List.suffix_cons it rest)

lemma drainFrom_badgeOf_ne (q : List WorkItem) (s : Sys) (b : Nat)
    (h : ∀ it ∈ q, it.eid ≠ b) :
    badgeOf (drainFrom q s).1 b = badgeOf s b := by
  induction q with
  | nil => rfl
  | cons it rest ih =>
    rw [drainFrom]
    split
    · show badgeOf { setBadge s it.eid .loading with
        analysisQueue := rest, isProcessingQueue := true, consumer := .inflight it } b = _
      have heq : badgeOf { setBadge s it.eid .loading with
          analysisQueue := rest, isProcessingQueue := true, consumer := .inflight it } b =
          badgeOf (setBadge s it.eid .loading) b := rfl
      rw [heq, badgeOf_setBadge_ne]
      exact fun hb => h it (List.mem_cons_self it rest) hb.symm
    · exact ih fun it2 h2 => h it2 (List.mem_cons_of_mem it h2)

lemma drainFrom_badgeOf_notInDom (q : List WorkItem) (s : Sys) (b : Nat)
    (h : elemInDom s b = false) :
    badgeOf (drainFrom q s).1 b = badgeOf s b := by
  induction q with
  | nil => rfl
  | cons it rest ih =>
    rw [drainFrom]
    split
    · rename_i hdom
      show badgeOf { setBadge s it.eid .loading with
        analysisQueue := rest, isProcessingQueue := true, consumer := .inflight it } b = _
      have heq : badgeOf { setBadge s it.eid .loading with
          analysisQueue := rest, isProcessingQueue := true, consumer := .inflight it } b =
          badgeOf (setBadge s it.eid .loading) b := rfl
      rw [heq, badgeOf_setBadge_ne]
      intro hb
      rw [hb] at h
      rw [h] at hdom
      cases hdom
    · exact ih

lemma drainFrom_starts (q : List WorkItem) (s : Sys) :
    (∃ it, (drainFrom q s).1.consumer = .inflight it) ∨
    ((drainFrom q s).1.analysisQueue = [] ∧
     (drainFrom q s).1.isProcessingQueue = false ∧
     (drainFrom q s).1.consumer = .idle) := by
  induction q with
  | nil => exact .inr ⟨rfl, rfl, rfl⟩
  | cons it rest ih =>
    rw [drainFrom]
    split
    · exact .inl ⟨it, rfl⟩
    · exact ih

/-- Which actions are outbound classification requests. -/
def isSend : Act → Bool
  | .sendRequest _ _ _ => true
  | _ => false

/-- The first item of the queue whose element is still in the document. -/
def firstLive (s : Sys) : List WorkItem → Option WorkItem
  | [] => none
  | it :: rest => if elemInDom s it.eid then some it else firstLive s rest

lemma drainFrom_sends (q : List WorkItem) (s : Sys) :
    (drainFrom q s).2.filter isSend =
      (match firstLive s q with
       | some it => [Act.sendRequest it.eid it.postId it.text]
       | none => []) := by
  induction q with
  | nil => rfl
  | cons it rest ih =>
    rw [drainFrom, firstLive]
    split
    · rfl
    · rw [List.filter_cons]
      simpa [isSend] using ih

lemma drainFrom_consumer_firstLive (q : List WorkItem) (s : Sys) :
    (match firstLive s q with
     | some it => (drainFrom q s).1.consumer = .inflight it
     | none => (drainFrom q s).1.consumer = .idle) := by
  induction q with
  | nil => rfl
  | cons it rest ih =>
    rw [drainFrom, firstLive]
    by_cases hdom : elemInDom s it.eid = true
    · simp only [hdom, if_true]
    · simp only [hdom, if_false]
      exact ih

lemma processQueue_running (s : Sys) (h : s.isProcessingQueue = true) :
    processQueue s = (s, []) := by
  simp [processQueue, h]
/-! ## Lemmas about the scan -/

lemma scanPush_running (s : Sys) (eid : Nat) :
    (scanPush s eid).1.isProcessingQueue = s.isProcessingQueue := by
  unfold scanPush
  rcases findE s eid with _ | e
  · rfl
  · dsimp only
    split
    · rfl
    · rcases e.textContent with _ | raw
      · rfl
      · dsimp only
        split
        · rfl
        · rcases List.lookup (hashString (jsCharCodes (jsTrim raw)))
            (setTag s eid Tag.pending).analyzedPosts with _ | cached <;> rfl

lemma scanOne_running_true (s : Sys) (eid : Nat) (h : s.isProcessingQueue = true) :
    (scanOne s eid).1.isProcessingQueue = true ∧ (scanOne s eid).2 = [] := by
  unfold scanOne
  have hr := scanPush_running s eid
  rw [h] at hr
  split
  · exact ⟨hr, rfl⟩
  · rw [processQueue_running _ hr]
    exact ⟨hr, rfl⟩

lemma scanList_running_true (ids : List Nat) : ∀ s : Sys,
    s.isProcessingQueue = true →
    (scanList s ids).1.isProcessingQueue = true ∧ (scanList s ids).2 = [] := by
  induction ids with
  | nil => exact fun s h => ⟨h, rfl⟩
  | cons eid rest ih =>
    intro s h
    rw [scanList]
    obtain ⟨h1, h2⟩ := scanOne_running_true s eid h
    obtain ⟨h3, h4⟩ := ih _ h1
    exact ⟨h3, by rw [h2, h4]; rfl⟩

lemma processTweets_running_true (s : Sys) (h : s.isProcessingQueue = true) :
    (processTweets s).1.isProcessingQueue = true ∧ (processTweets s).2 = [] := by
  unfold processTweets
  exact scanList_running_true _ s h
/-! ## Claim theorems: queue behaviour -/

/-- C5: a dequeued Work Item whose element is no longer in the live document
is silently discarded — it contributes exactly a discard, every outbound
request of the drain is for an element still in the document (so none for
this item), the cache is not written, and the element's badge is untouched. -/
theorem discard_removed_item (it : WorkItem) (rest : List WorkItem) (s : Sys)
    (h : elemInDom s it.eid = false) :
    drainFrom (it :: rest) s =
      ((drainFrom rest s).1, .discard it.eid :: (drainFrom rest s).2) ∧
    (∀ e p t, Act.sendRequest e p t ∈ (drainFrom (it :: rest) s).2 →
      elemInDom s e = true) ∧
    (drainFrom (it :: rest) s).1.analyzedPosts = s.analyzedPosts ∧
    badgeOf (drainFrom (it :: rest) s).1 it.eid = badgeOf s it.eid := by
  refine ⟨?_, drainFrom_send_inDom _ _, drainFrom_cache _ _,
    drainFrom_badgeOf_notInDom _ _ _ h⟩
  rw [drainFrom, if_neg]
  simp [h]

/-- C5 witness: a one-element queue whose element left the document. -/
theorem discard_removed_item_witness :
    drainFrom [⟨0, "text", "pid"⟩] ⟨[⟨0, some "text", .pending, .loading, false⟩], [], [], true, .idle⟩ =
      ((drainFrom [] ⟨[⟨0, some "text", .pending, .loading, false⟩], [], [], true, .idle⟩).1,
       .discard 0 :: (drainFrom [] ⟨[⟨0, some "text", .pending, .loading, false⟩], [], [], true, .idle⟩).2) ∧
    (∀ e p t, Act.sendRequest e p t ∈
      (drainFrom [⟨0, "text", "pid"⟩] ⟨[⟨0, some "text", .pending, .loading, false⟩], [], [], true, .idle⟩).2 →
      elemInDom ⟨[⟨0, some "text", .pending, .loading, false⟩], [], [], true, .idle⟩ e = true) ∧
    (drainFrom [⟨0, "text", "pid"⟩] ⟨[⟨0, some "text", .pending, .loading, false⟩], [], [], true, .idle⟩).1.analyzedPosts = [] ∧
    badgeOf (drainFrom [⟨0, "text", "pid"⟩] ⟨[⟨0, some "text", .pending, .loading, false⟩], [], [], true, .idle⟩).1 0 =
      badgeOf ⟨[⟨0, some "text", .pending, .loading, false⟩], [], [], true, .idle⟩ 0 :=
  discard_removed_item ⟨0, "text", "pid"⟩ []
    ⟨[⟨0, some "text", .pending, .loading, false⟩], [], [], true, .idle⟩ rfl

/-- C8: the queue has one consumer-loop instance: a `processQueue` call while
the guard flag is set is a no-op; a call while idle with a non-empty queue
(re)starts the drain; the drain issues the request of the first still-live
item in insertion (FIFO) order; and while one item is in flight no event
other than its own response can issue another request. -/
theorem single_consumer_fifo :
    (∀ s : Sys, s.isProcessingQueue = true → processQueue s = (s, [])) ∧
    (∀ s : Sys, s.isProcessingQueue = false → s.analysisQueue ≠ [] →
      processQueue s =
        drainFrom s.analysisQueue { s with isProcessingQueue := true } ∧
      ((∃ it, (processQueue s).1.consumer = .inflight it) ∨
        (processQueue s).1.analysisQueue = [])) ∧
    (∀ (q : List WorkItem) (s : Sys),
      (drainFrom q s).2.filter isSend =
        (match firstLive s q with
         | some it => [Act.sendRequest it.eid it.postId it.text]
         | none => []) ∧
      (match firstLive s q with
       | some it => (drainFrom q s).1.consumer = .inflight it
       | none => (drainFrom q s).1.consumer = .idle)) ∧
    (∀ (s : Sys) (it : WorkItem) (ev : EnvEv),
      (s.consumer ≠ .idle → s.isProcessingQueue = true) →
      s.consumer = .inflight it →
      (∀ r, ev ≠ .respond r) →
      (step s ev).2.filter isSend = []) := by
  refine ⟨processQueue_running, ?_,
    fun q s => ⟨drainFrom_sends q s, drainFrom_consumer_firstLive q s⟩, ?_⟩
  · intro s hrun hq
    have hq' : s.analysisQueue.isEmpty = false := by
      cases hqq : s.analysisQueue
      · exact absurd hqq hq
      · rfl
    have heq : processQueue s =
        drainFrom s.analysisQueue { s with isProcessingQueue := true } := by
      simp [processQueue, hrun, hq']
    refine ⟨heq, ?_⟩
    rw [heq]
    rcases drainFrom_starts s.analysisQueue { s with isProcessingQueue := true } with h | h
    · exact .inl h
    · exact .inr h.1
  · intro s it ev hinv hcons hne
    cases ev with
    | scan =>
      have hrun := hinv (by rw [hcons]; simp)
      have hpt := processTweets_running_true s hrun
      show ((processTweets s).2).filter isSend = []
      rw [hpt.2]
      rfl
    | respond r => exact absurd rfl (hne r)
    | delayDone =>
      simp only [step, hcons]
      rfl
    | removeElem eid => rfl

/-- C8 witness: concrete instances of the guard, the restart, the FIFO head
request and the no-second-request property. -/
theorem single_consumer_fifo_witness :
    processQueue ⟨[], [], [⟨0, "t", "p"⟩], true, .delaying⟩ =
      (⟨[], [], [⟨0, "t", "p"⟩], true, .delaying⟩, []) ∧
    (processQueue ⟨[⟨0, some "t", .pending, .absent, true⟩], [], [⟨0, "t", "p"⟩], false, .idle⟩ =
      drainFrom [⟨0, "t", "p"⟩] ⟨[⟨0, some "t", .pending, .absent, true⟩], [], [⟨0, "t", "p"⟩], true, .idle⟩ ∧
      ((∃ it, (processQueue ⟨[⟨0, some "t", .pending, .absent, true⟩], [], [⟨0, "t", "p"⟩], false, .idle⟩).1.consumer = .inflight it) ∨
        (processQueue ⟨[⟨0, some "t", .pending, .absent, true⟩], [], [⟨0, "t", "p"⟩], false, .idle⟩).1.analysisQueue = [])) ∧
    (step ⟨[], [], [], true, .inflight ⟨0, "t", "p"⟩⟩ .scan).2.filter isSend = [] := by
  refine ⟨single_consumer_fifo.1 _ rfl, ?_, ?_⟩
  · exact single_consumer_fifo.2.1 _ rfl (by simp)
  · exact single_consumer_fifo.2.2.2 _ ⟨0, "t", "p"⟩ .scan
      (fun _ => rfl) rfl (fun r h => by cases h)

/-- C2 amended: the 100 ms inter-item delay is awaited after an item that
completes successfully and after an item that fails with a thrown fault, but
an item that fails with an error result and a discarded item are followed by
the next item immediately: no delay action occurs on those paths. -/
theorem inter_item_delay_amended :
    (∀ (s : Sys) (it : WorkItem) (r : ClassResult),
      s.consumer = .inflight it →
      (step s (.respond (.ok r))).2 = [Act.delay] ∧
      (step s (.respond (.ok r))).1.consumer = .delaying) ∧
    (∀ (s : Sys) (it : WorkItem) (m : String),
      s.consumer = .inflight it →
      (step s (.respond (.thrown m))).2 = [Act.delay] ∧
      (step s (.respond (.thrown m))).1.consumer = .delaying) ∧
    (∀ (s : Sys) (it : WorkItem) (m : String),
      s.consumer = .inflight it →
      Act.delay ∉ (step s (.respond (.err m))).2) ∧
    (∀ (q : List WorkItem) (s : Sys), Act.delay ∉ (drainFrom q s).2) := by
  refine ⟨?_, ?_, ?_, drainFrom_no_delay⟩
  · intro s it r hcons
    simp [step, hcons]
  · intro s it m hcons
    simp [step, hcons]
  · intro s it m hcons
    simp only [step, hcons]
    exact drainFrom_no_delay _ _

/-- C2 amended witness: concrete success and error-result responses. -/
theorem inter_item_delay_amended_witness :
    (step ⟨[⟨0, some "t", .pending, .loading, true⟩], [], [], true, .inflight ⟨0, "t", "p"⟩⟩
        (.respond (.ok ⟨.low, "ok"⟩))).2 = [Act.delay] ∧
    Act.delay ∉ (step ⟨[⟨0, some "t", .pending, .loading, true⟩], [], [], true, .inflight ⟨0, "t", "p"⟩⟩
        (.respond (.err "boom"))).2 :=
  ⟨(inter_item_delay_amended.1 _ ⟨0, "t", "p"⟩ ⟨.low, "ok"⟩ rfl).1,
   inter_item_delay_amended.2.2.1 _ ⟨0, "t", "p"⟩ "boom" rfl⟩
/-! ## Concrete executions -/

/-- A post text longer than the 20-character minimum. -/
def exTextA : String := "No hype. No fluff. Just pure signal here."

/-- A second, different post text longer than the minimum. -/
def exTextB : String := "Here is the thing: the reality is long text."

/-- Element 0 carrying `exTextA`, untagged, in the document. -/
def elemA0 : ElemSt := ⟨0, some exTextA, .unseen, .absent, true⟩

/-- Element 1 carrying the same text as element 0. -/
def elemB1 : ElemSt := ⟨1, some exTextA, .unseen, .absent, true⟩

/-- Element 1 carrying the different text `exTextB`. -/
def elemC1 : ElemSt := ⟨1, some exTextB, .unseen, .absent, true⟩

/-- Initial state: two elements with identical text, empty cache and queue. -/
def sysDup : Sys := ⟨[elemA0, elemB1], [], [], false, .idle⟩

/-- Initial state: two elements with distinct texts, empty cache and queue. -/
def sysTwo : Sys := ⟨[elemA0, elemC1], [], [], false, .idle⟩

set_option maxRecDepth 100000 in
/-- C2 counterexample: after the first item comes back with an error result,
the consumer issues the next item's request immediately — the whole trace of
the two processings contains no delay action at all, falsifying "the consumer
unconditionally waits the fixed inter-item delay before processing the next
item" for error-result items. -/
theorem inter_item_delay_counterexample :
    (run sysTwo [.scan, .respond (.err "boom")]).2 =
      [Act.sendRequest 0 (hashString (jsCharCodes exTextA)) exTextA,
       Act.sendRequest 1 (hashString (jsCharCodes exTextB)) exTextB] ∧
    Act.delay ∉ (run sysTwo [.scan, .respond (.err "boom")]).2 := by
  refine ⟨by rfl, ?_⟩
  intro hmem
  have : (run sysTwo [.scan, .respond (.err "boom")]).2 =
      [Act.sendRequest 0 (hashString (jsCharCodes exTextA)) exTextA,
       Act.sendRequest 1 (hashString (jsCharCodes exTextB)) exTextB] := by rfl
  rw [this] at hmem
  simp at hmem

set_option maxRecDepth 100000 in
/-- C1 counterexample: one scan over two elements with identical extracted
text enqueues a second Work Item with the same identifier while the first is
in flight, and the continued run issues a second outbound classification
request for that identifier — falsifying "at most one Work Item per
identifier is ever in flight at a time" and "the second element never
produces a second Work Item or a second outbound request". -/
theorem dedup_inflight_counterexample :
    (run sysDup [.scan]).1.consumer =
      .inflight ⟨0, exTextA, hashString (jsCharCodes exTextA)⟩ ∧
    (run sysDup [.scan]).1.analysisQueue =
      [⟨1, exTextA, hashString (jsCharCodes exTextA)⟩] ∧
    (run sysDup [.scan, .respond (.ok ⟨.high, "reframing pattern"⟩), .delayDone]).2 =
      [Act.sendRequest 0 (hashString (jsCharCodes exTextA)) exTextA,
       Act.delay,
       Act.sendRequest 1 (hashString (jsCharCodes exTextA)) exTextA] :=
  ⟨rfl, rfl, rfl⟩
/-! ## Claim theorems: the Post Extractor state machine -/

lemma setTag_analyzedPosts (s : Sys) (a : Nat) (t : Tag) :
    (setTag s a t).analyzedPosts = s.analyzedPosts := rfl

lemma setTag_analysisQueue (s : Sys) (a : Nat) (t : Tag) :
    (setTag s a t).analysisQueue = s.analysisQueue := rfl

/-- C7: for an untagged element the extractor tags `no-text` and never
enqueues when no text node exists; tags `too-short` and never enqueues when
the trimmed text is shorter than 20 characters; renders from the cache and
tags `cached` on a hit; and tags `pending` and pushes exactly one Work Item
on a miss. -/
theorem scan_state_machine (s : Sys) (eid : Nat) (e : ElemSt)
    (hfind : findE s eid = some e) (hnew : e.tag = .unseen) :
    (e.textContent = none →
      tagOf (scanPush s eid).1 eid = some .noText ∧
      (scanPush s eid).2 = [] ∧
      (scanPush s eid).1.analysisQueue = s.analysisQueue) ∧
    (∀ raw, e.textContent = some raw → (jsTrim raw).length < 20 →
      tagOf (scanPush s eid).1 eid = some .tooShort ∧
      (scanPush s eid).2 = [] ∧
      (scanPush s eid).1.analysisQueue = s.analysisQueue) ∧
    (∀ raw r, e.textContent = some raw → ¬ (jsTrim raw).length < 20 →
      List.lookup (hashString (jsCharCodes (jsTrim raw))) s.analyzedPosts = some r →
      tagOf (scanPush s eid).1 eid = some .cached ∧
      badgeOf (scanPush s eid).1 eid = some (.shown r) ∧
      (scanPush s eid).2 = [] ∧
      (scanPush s eid).1.analysisQueue = s.analysisQueue) ∧
    (∀ raw, e.textContent = some raw → ¬ (jsTrim raw).length < 20 →
      List.lookup (hashString (jsCharCodes (jsTrim raw))) s.analyzedPosts = none →
      tagOf (scanPush s eid).1 eid = some .pending ∧
      (scanPush s eid).2 = [⟨eid, jsTrim raw, hashString (jsCharCodes (jsTrim raw))⟩] ∧
      (scanPush s eid).1.analysisQueue =
        s.analysisQueue ++ [⟨eid, jsTrim raw, hashString (jsCharCodes (jsTrim raw))⟩]) := by
  have hsome : (findE s eid).isSome := by rw [hfind]; rfl
  refine ⟨?_, ?_, ?_, ?_⟩
  · intro htext
    have hp : scanPush s eid = (setTag (setTag s eid .pending) eid .noText, []) := by
      unfold scanPush
      rw [hfind]
      simp [hnew, htext]
    rw [hp]
    refine ⟨?_, rfl, rfl⟩
    exact tagOf_setTag_self _ _ _ (by rw [isSome_findE_setTag]; exact hsome)
  · intro raw hraw hlen
    have hp : scanPush s eid = (setTag (setTag s eid .pending) eid .tooShort, []) := by
      unfold scanPush
      rw [hfind]
      simp [hnew, hraw, hlen]
    rw [hp]
    refine ⟨?_, rfl, rfl⟩
    exact tagOf_setTag_self _ _ _ (by rw [isSome_findE_setTag]; exact hsome)
  · intro raw r hraw hlen hcache
    have hp : scanPush s eid =
        (setTag (setBadge (setTag s eid .pending) eid (.shown r)) eid .cached, []) := by
      unfold scanPush
      rw [hfind]
      simp [hnew, hraw, hlen, setTag_analyzedPosts, hcache]
    rw [hp]
    refine ⟨?_, ?_, rfl, rfl⟩
    · exact tagOf_setTag_self _ _ _
        (by rw [isSome_findE_setBadge, isSome_findE_setTag]; exact hsome)
    · rw [badgeOf_setTag]
      exact badgeOf_setBadge_self _ _ _
        (by rw [isSome_findE_setTag]; exact hsome)
  · intro raw hraw hlen hcache
    have hp : scanPush s eid =
        ({ setTag s eid .pending with
            analysisQueue := s.analysisQueue ++
              [⟨eid, jsTrim raw, hashString (jsCharCodes (jsTrim raw))⟩] },
         [⟨eid, jsTrim raw, hashString (jsCharCodes (jsTrim raw))⟩]) := by
      unfold scanPush
      rw [hfind]
      simp [hnew, hraw, hlen, setTag_analyzedPosts, setTag_analysisQueue, hcache]
    rw [hp]
    refine ⟨?_, rfl, rfl⟩
    exact tagOf_setTag_self _ _ _ hsome

/-- C7 witness: scenario A — an untagged element with the 5-character text
`"short"` is tagged `too-short` and the queue stays empty. -/
theorem scan_state_machine_witness :
    tagOf (scanPush ⟨[⟨0, some "short", .unseen, .absent, true⟩], [], [], false, .idle⟩ 0).1 0 =
      some Tag.tooShort ∧
    (scanPush ⟨[⟨0, some "short", .unseen, .absent, true⟩], [], [], false, .idle⟩ 0).2 = [] ∧
    (scanPush ⟨[⟨0, some "short", .unseen, .absent, true⟩], [], [], false, .idle⟩ 0).1.analysisQueue = [] :=
  (scan_state_machine ⟨[⟨0, some "short", .unseen, .absent, true⟩], [], [], false, .idle⟩ 0
    ⟨0, some "short", .unseen, .absent, true⟩ rfl rfl).2.1 "short" rfl (by decide)

/-- C1 amended: the dedup invariant holds only once the first element's
result has been written to the cache before the second element is scanned:
re-scans skip every element already carrying a state tag, and an element
whose identifier is already cached is served from the Dedup Cache, tagged
`cached`, and produces no Work Item and no outbound request.  (If the second
element is scanned while the first's item is still queued or in flight, a
second Work Item with the same identifier is created —
see the counterexample.) -/
theorem dedup_amended (s : Sys) (eid : Nat) (e : ElemSt)
    (hfind : findE s eid = some e) :
    (e.tag ≠ .unseen → scanPush s eid = (s, []) ∧ scanOne s eid = (s, [])) ∧
    (∀ raw r, e.tag = .unseen → e.textContent = some raw →
      ¬ (jsTrim raw).length < 20 →
      List.lookup (hashString (jsCharCodes (jsTrim raw))) s.analyzedPosts = some r →
      (scanPush s eid).2 = [] ∧
      tagOf (scanPush s eid).1 eid = some .cached ∧
      badgeOf (scanPush s eid).1 eid = some (.shown r) ∧
      (scanPush s eid).1.analysisQueue = s.analysisQueue ∧
      (scanOne s eid).2 = []) := by
  have hsome : (findE s eid).isSome := by rw [hfind]; rfl
  constructor
  · intro htag
    have hp : scanPush s eid = (s, []) := by
      unfold scanPush
      rw [hfind]
      simp [htag]
    refine ⟨hp, ?_⟩
    unfold scanOne
    rw [hp]
    rfl
  · intro raw r htag hraw hlen hcache
    have hp : scanPush s eid =
        (setTag (setBadge (setTag s eid .pending) eid (.shown r)) eid .cached, []) := by
      unfold scanPush
      rw [hfind]
      simp [htag, hraw, hlen, setTag_analyzedPosts, hcache]
    refine ⟨by rw [hp], ?_, ?_, by rw [hp]; rfl, ?_⟩
    · rw [hp]
      exact tagOf_setTag_self _ _ _
        (by rw [isSome_findE_setBadge, isSome_findE_setTag]; exact hsome)
    · rw [hp]
      show badgeOf (setTag (setBadge (setTag s eid .pending) eid (.shown r)) eid .cached) eid = _
      rw [badgeOf_setTag]
      exact badgeOf_setBadge_self _ _ _
        (by rw [isSome_findE_setTag]; exact hsome)
    · unfold scanOne
      rw [hp]
      rfl

set_option maxRecDepth 100000 in
/-- C1 amended witness: a cached identifier at scan time produces no Work
Item and renders immediately. -/
theorem dedup_amended_witness :
    (scanPush ⟨[elemB1], [(hashString (jsCharCodes exTextA), ⟨.high, "r"⟩)], [], false, .idle⟩ 1).2 = [] ∧
    tagOf (scanPush ⟨[elemB1], [(hashString (jsCharCodes exTextA), ⟨.high, "r"⟩)], [], false, .idle⟩ 1).1 1 =
      some Tag.cached :=
  have h := (dedup_amended ⟨[elemB1], [(hashString (jsCharCodes exTextA), ⟨.high, "r"⟩)], [], false, .idle⟩ 1
    elemB1 rfl).2 exTextA ⟨.high, "r"⟩ rfl rfl (by decide) (by decide)
  ⟨h.1, h.2.1⟩
/-! ## Claim theorem: failure handling of a Work Item -/

/-- C4: a Work Item whose classification fails — an error result or a thrown
fault on the content side, e.g. an HTTP 401 surfaced by the worker — leaves
the element tagged `error` with no badge attached, writes nothing to the
Dedup Cache, never re-enqueues the item, and leaves the stats record
unchanged. -/
theorem failure_no_cache_no_retry :
    (∀ (s : Sys) (it : WorkItem) (m : String),
      s.consumer = .inflight it →
      (findE s it.eid).isSome →
      (∀ it2 ∈ s.analysisQueue, it2.eid ≠ it.eid) →
      tagOf (step s (.respond (.err m))).1 it.eid = some .error ∧
      badgeOf (step s (.respond (.err m))).1 it.eid = some .absent ∧
      (step s (.respond (.err m))).1.analyzedPosts = s.analyzedPosts ∧
      (step s (.respond (.err m))).1.analysisQueue <:+ s.analysisQueue) ∧
    (∀ (s : Sys) (it : WorkItem) (m : String),
      s.consumer = .inflight it →
      (findE s it.eid).isSome →
      tagOf (step s (.respond (.thrown m))).1 it.eid = some .error ∧
      badgeOf (step s (.respond (.thrown m))).1 it.eid = some .absent ∧
      (step s (.respond (.thrown m))).1.analyzedPosts = s.analyzedPosts ∧
      (step s (.respond (.thrown m))).1.analysisQueue = s.analysisQueue) ∧
    (∀ (st : BgState) (now : Int) (bm sf : Option String),
      (getSettingsPure st).enabled = true →
      (getSettingsPure st).apiKey ≠ "" →
      (handleAnalyzePost st now ⟨none, .notOk 401 bm, sf⟩).result =
        .failure (jsOrStr bm ("API error: " ++ toString 401)) ∧
      (handleAnalyzePost st now ⟨none, .notOk 401 bm, sf⟩).state.storeStats =
        st.storeStats ∧
      BgEvent.statsWrite ∉ (handleAnalyzePost st now ⟨none, .notOk 401 bm, sf⟩).events) := by
  refine ⟨?_, ?_, ?_⟩
  · intro s it m hcons hsome hq
    simp only [step, hcons]
    refine ⟨?_, ?_, ?_, ?_⟩
    · rw [drainFrom_tagOf]
      exact tagOf_setTag_self _ _ _
        (by rw [isSome_findE_setBadge]; exact hsome)
    · have hq' : ∀ it2 ∈ (setTag (setBadge s it.eid Badge.absent) it.eid Tag.error).analysisQueue,
          it2.eid ≠ it.eid := hq
      rw [drainFrom_badgeOf_ne _ _ _ hq', badgeOf_setTag]
      exact badgeOf_setBadge_self _ _ _ hsome
    · rw [drainFrom_cache]
      rfl
    · exact drainFrom_queue_suffix _ _
  · intro s it m hcons hsome
    simp only [step, hcons]
    refine ⟨?_, ?_, rfl, rfl⟩
    · exact tagOf_setTag_self (setBadge s it.eid .absent) _ _
        (by rw [isSome_findE_setBadge]; exact hsome)
    · have h1 : badgeOf (setTag (setBadge s it.eid .absent) it.eid .error) it.eid =
          some .absent := by
        rw [badgeOf_setTag]
        exact badgeOf_setBadge_self _ _ _ hsome
      exact h1
  · intro st now bm sf he hk
    refine ⟨?_, ?_, ?_⟩
    · simp [handleAnalyzePost, handleBody, he, hk, analyzeWithOpenAI]
    · simp [handleAnalyzePost, handleBody, he, hk, analyzeWithOpenAI]
    · simp [handleAnalyzePost, handleBody, he, hk, analyzeWithOpenAI]

/-- C4 witness: an in-flight item whose response is an error result (the
worker's surfaced HTTP 401), on a one-element document with an empty queue,
plus the worker-side 401 at a concrete store. -/
theorem failure_no_cache_no_retry_witness :
    tagOf (step ⟨[⟨5, some "t", .pending, .loading, true⟩], [], [], true, .inflight ⟨5, "t", "p"⟩⟩
        (.respond (.err "Analysis error"))).1 5 = some Tag.error ∧
    badgeOf (step ⟨[⟨5, some "t", .pending, .loading, true⟩], [], [], true, .inflight ⟨5, "t", "p"⟩⟩
        (.respond (.err "Analysis error"))).1 5 = some Badge.absent ∧
    (handleAnalyzePost ⟨some "sk-x", none, some ⟨3, 1, 1, 1, 0⟩, 0⟩ 9
        ⟨none, .notOk 401 none, none⟩).state.storeStats = some ⟨3, 1, 1, 1, 0⟩ :=
  have h1 := failure_no_cache_no_retry.1
    ⟨[⟨5, some "t", .pending, .loading, true⟩], [], [], true, .inflight ⟨5, "t", "p"⟩⟩
    ⟨5, "t", "p"⟩ "Analysis error" rfl rfl (by intro it2 h2; simp at h2)
  have h2 := (failure_no_cache_no_retry.2.2
    ⟨some "sk-x", none, some ⟨3, 1, 1, 1, 0⟩, 0⟩ 9 none none rfl (by decide)).2.1
  ⟨h1.1, h1.2.1, h2⟩
